import Mathlib

/-!
Shallow embedding of the browser-agent loop orchestrator and its memory
subsystem (src/agent/agent.py, src/agent/memory.py, src/agent/tools.py).

Modelling conventions:
* Python floats occur only as small decimal importance weights and the
  success-rate fraction; they are modelled as rationals.
* Wall-clock timestamps (`datetime.now()`) are modelled as an explicit
  `now : Nat` argument supplied by the ambient environment.
* `Dict[str, Any]` parameter payloads, which the core only passes around,
  are modelled as association lists of strings.
* I/O with the browser, the LLM planner and the logger is modelled by an
  explicit per-step environment (`StepEnv`): the external calls either
  raise (a `String` exception text) or return their value.
-/

set_option linter.unusedVariables false

/-- Parameter mapping of a plan or action call (`Dict[str, Any]`); the
orchestrator and memory only pass it around opaquely. -/
abbrev Params := List (String × String)

/-- The `ActionResult` dataclass from src/agent/tools.py. -/
structure ActionResult where
  success : Bool
  message : String
  data : Option String := none
deriving Repr, DecidableEq

/-- A Python value handed to `Memory.add_action` as `result`: either an
`ActionResult` (which has a `success` attribute) or any other object with
no `success` attribute, kept by its `str()` rendering. -/
inductive ResultVal where
  | ofActionResult (r : ActionResult)
  | other (asStr : String)
deriving Repr, DecidableEq

/-- The expression `getattr(result, 'success', True)` in `Memory.add_action`
(src/agent/memory.py line 114). -/
def getattrSuccess : ResultVal → Bool
  | .ofActionResult r => r.success
  | .other _ => true

/-- The payloads stored as `MemoryItem.content` by the memory operations. -/
inductive Content where
  | str (s : String)
  | obsSummary (url title : Option String) (element_count : Nat)
  | actionSummary (action : String) (params : Params) (success : Bool)
  | reflection (content : String) (adjustment : Option String) (timestamp : Nat)
deriving Repr, DecidableEq

/-- The `MemoryItem` dataclass (src/agent/memory.py lines 15-22). -/
structure MemoryItem where
  content : Content
  item_type : String
  timestamp : Nat := 0
  importance : ℚ := 1/2
  tags : List String := []
deriving Repr, DecidableEq

/-- The `ActionMemory` dataclass (src/agent/memory.py lines 25-32). -/
structure ActionMemory where
  action : String
  params : Params
  result : ResultVal
  success : Bool
  timestamp : Nat := 0
deriving Repr, DecidableEq

/-- The `reflection_dict` built by `Memory.add_reflection`
(src/agent/memory.py lines 134-138). -/
structure ReflectionDict where
  content : String
  adjustment : Option String
  timestamp : Nat
deriving Repr, DecidableEq

/-- A duck-typed reflection object passed to `add_reflection`: optional
`content` and `adjustment` attributes, the `is_important` flag
(`getattr(reflection, 'is_important', False)`), and its `str()` rendering
used when `content` is absent. -/
structure ReflectionInput where
  content : Option String
  adjustment : Option String
  is_important : Bool
  asStr : String
deriving Repr, DecidableEq

/-- An observation dictionary as produced by `BrowserAgent._observe`
(src/agent/agent.py lines 146-160). -/
structure Obs where
  url : Option String := none
  title : Option String := none
  interactive_elements : List String := []
  dom : String := ""
  visible_text : String := ""
  screenshot : String := ""
deriving Repr, DecidableEq

/-- The `Memory` object's fields (src/agent/memory.py lines 43-67).  The
two deques are modelled as lists together with their `maxlen`. -/
structure Memory where
  short_term_capacity : Nat
  long_term_capacity : Nat
  short_term : List MemoryItem
  long_term : List MemoryItem
  goal : Option String
  sub_goals : List String
  actions_history : List ActionMemory
  observations_cache : List Obs
  errors : List String
  notes : List String
  reflections : List ReflectionDict
  semantic_index : List (String × List Nat)
deriving Repr, DecidableEq

/-- `Memory.__init__` (src/agent/memory.py lines 43-67). -/
def Memory.init (short_term_capacity : Nat := 20) (long_term_capacity : Nat := 100) :
    Memory :=
  { short_term_capacity := short_term_capacity
    long_term_capacity := long_term_capacity
    short_term := [], long_term := [], goal := none, sub_goals := []
    actions_history := [], observations_cache := [], errors := []
    notes := [], reflections := [], semantic_index := [] }

/-- Appending to a `collections.deque(maxlen := cap)`: when full, the
oldest (leftmost) element is discarded. -/
def dequePush (cap : Nat) (q : List α) (x : α) : List α :=
  let q' := q ++ [x]
  if cap < q'.length then q'.drop (q'.length - cap) else q'

/-- `self.semantic_index[tag].append(idx)`, creating the entry when the tag
is absent (src/agent/memory.py lines 279-282). -/
def indexInsert (tag : String) (idx : Nat) :
    List (String × List Nat) → List (String × List Nat)
  | [] => [(tag, [idx])]
  | (t, l) :: rest =>
      if t = tag then (t, l ++ [idx]) :: rest else (t, l) :: indexInsert tag idx rest

/-- `Memory._add_to_short_term` (src/agent/memory.py lines 262-282): build
the item, append it to the short-term deque, then index each tag with the
post-append position `len(short_term) - 1`. -/
def Memory.add_to_short_term (m : Memory) (content : Content) (item_type : String)
    (now : Nat) (importance : ℚ := 1/2) (tags : List String := []) : Memory :=
  let item : MemoryItem :=
    { content := content, item_type := item_type, timestamp := now
      importance := importance, tags := tags }
  let st := dequePush m.short_term_capacity m.short_term item
  { m with
    short_term := st
    semantic_index :=
      item.tags.foldl (fun si tag => indexInsert tag (st.length - 1) si)
        m.semantic_index }

/-- `Memory.set_goal` (src/agent/memory.py lines 69-77). -/
def Memory.set_goal (m : Memory) (goal : String) (now : Nat) : Memory :=
  ({ m with goal := some goal }).add_to_short_term (.str goal) "goal" now 1
    ["goal", "task"]

/-- `Memory.add_sub_goal` (src/agent/memory.py lines 79-87). -/
def Memory.add_sub_goal (m : Memory) (sub_goal : String) (now : Nat) : Memory :=
  ({ m with sub_goals := m.sub_goals ++ [sub_goal] }).add_to_short_term
    (.str sub_goal) "sub_goal" now (8/10) ["sub_goal"]

/-- `Memory.add_observation` (src/agent/memory.py lines 89-106): cache the
raw observation (deque of maxlen 5) and push a summary to short-term. -/
def Memory.add_observation (m : Memory) (observation : Obs) (now : Nat) : Memory :=
  ({ m with observations_cache := dequePush 5 m.observations_cache observation
     }).add_to_short_term
    (.obsSummary observation.url observation.title
      observation.interactive_elements.length)
    "observation" now (1/2) ["observation", "page"]

/-- `Memory.add_action` (src/agent/memory.py lines 108-130): the ledger
entry's `success` is `getattr(result, 'success', True)` and the short-term
importance is 0.7 for a successful action, 0.9 for a failed one. -/
def Memory.add_action (m : Memory) (action : String) (params : Params)
    (result : ResultVal) (now : Nat) : Memory :=
  let action_memory : ActionMemory :=
    { action := action, params := params, result := result
      success := getattrSuccess result, timestamp := now }
  let importance : ℚ := if action_memory.success then 7/10 else 9/10
  ({ m with actions_history := m.actions_history ++ [action_memory]
     }).add_to_short_term
    (.actionSummary action params action_memory.success)
    "action" now importance ["action", action]

/-- Stable ascending sort by importance, modelling Python's stable
`list.sort(key=lambda x: x.importance)`. -/
def sortByImportance (l : List MemoryItem) : List MemoryItem :=
  l.insertionSort (fun a b => a.importance ≤ b.importance)

/-- `Memory._promote_to_long_term` (src/agent/memory.py lines 284-301):
when the tier is full, sort ascending by importance and `pop(0)` the first
element before appending the new item.  `pop(0)` on an empty list raises
`IndexError`, modelled as `none` (reachable only with capacity 0). -/
def promoteToLongTerm (cap : Nat) (lt : List MemoryItem) (content : Content)
    (item_type : String) (now : Nat) (importance : ℚ := 7/10) :
    Option (List MemoryItem) :=
  let item : MemoryItem :=
    { content := content, item_type := item_type, timestamp := now
      importance := importance }
  if cap ≤ lt.length then
    match sortByImportance lt with
    | [] => none
    | _ :: rest => some (rest ++ [item])
  else
    some (lt ++ [item])

/-- `Memory.add_reflection` (src/agent/memory.py lines 132-154): build the
reflection dict, push it to short-term, and promote it to the long-term
tier when the input is flagged important. -/
def Memory.add_reflection (m : Memory) (r : ReflectionInput) (now : Nat) :
    Option Memory :=
  let reflection_dict : ReflectionDict :=
    { content := r.content.getD r.asStr, adjustment := r.adjustment
      timestamp := now }
  let m' := ({ m with reflections := m.reflections ++ [reflection_dict]
               }).add_to_short_term
    (.reflection reflection_dict.content reflection_dict.adjustment
      reflection_dict.timestamp)
    "reflection" now (85/100) ["reflection", "learning"]
  if r.is_important then
    (promoteToLongTerm m'.long_term_capacity m'.long_term
        (.reflection reflection_dict.content reflection_dict.adjustment
          reflection_dict.timestamp)
        "reflection" now (9/10)).map
      (fun lt => { m' with long_term := lt })
  else
    some m'

/-- `Memory.add_error` (src/agent/memory.py lines 156-165). -/
def Memory.add_error (m : Memory) (error : String) (now : Nat) : Memory :=
  ({ m with errors := m.errors ++ [error] }).add_to_short_term
    (.str error) "error" now (8/10) ["error"]

/-- `Memory.add_note` (src/agent/memory.py lines 167-176). -/
def Memory.add_note (m : Memory) (note : String) (now : Nat)
    (importance : ℚ := 6/10) : Memory :=
  ({ m with notes := m.notes ++ [note] }).add_to_short_term
    (.str note) "note" now importance ["note"]

/-- Python slice `l[-n:]` for a non-negative `n`; note `l[-0:] = l[0:]`
selects the whole list. -/
def sliceLast (n : Nat) (l : List α) : List α :=
  if n = 0 then l else l.drop (l.length - n)

/-- `Memory.get_success_rate` (src/agent/memory.py lines 250-255). -/
def Memory.get_success_rate (m : Memory) (last_n : Nat := 10) : ℚ :=
  let recent := sliceLast last_n m.actions_history
  if recent.isEmpty then 1
  else ((recent.filter (·.success)).length : ℚ) / (recent.length : ℚ)

/-- One entry of the exported `actions_history` list: the ISO-rendered
timestamp is kept as the underlying clock value. -/
structure ActionExport where
  action : String
  params : Params
  success : Bool
  timestamp : Nat
deriving Repr, DecidableEq

/-- The snapshot dictionary produced by `Memory.export`. -/
structure Snapshot where
  goal : Option String
  sub_goals : List String
  actions_history : List ActionExport
  notes : List String
  reflections : List ReflectionDict
  errors : List String
deriving Repr, DecidableEq

/-- `Memory.export` (src/agent/memory.py lines 303-320); `export` is a Lean
keyword, hence the name `exportState`. -/
def Memory.exportState (m : Memory) : Snapshot :=
  { goal := m.goal
    sub_goals := m.sub_goals
    actions_history := m.actions_history.map (fun a =>
      { action := a.action, params := a.params, success := a.success
        timestamp := a.timestamp })
    notes := m.notes
    reflections := m.reflections
    errors := m.errors }

/-- `Memory.import_state` (src/agent/memory.py lines 322-328), written
`importState` so the line does not begin with a reserved word: only the
five structured fields are assigned; nothing else of the receiving memory
is touched. -/
def Memory.importState (m : Memory) (state : Snapshot) : Memory :=
  { m with goal := state.goal, sub_goals := state.sub_goals
           notes := state.notes, reflections := state.reflections
           errors := state.errors }

/-! ### The loop orchestrator (src/agent/agent.py) -/

/-- The `AgentState` enum (src/agent/agent.py lines 21-27). -/
inductive AgentState where
  | idle | thinking | acting | reflecting | completed | failed
deriving Repr, DecidableEq

/-- The planner's output (src/agent/planner.py `Plan`): rationale, chosen
action name, parameters and confidence. -/
structure Plan where
  thought : String
  action : String
  params : Params
  confidence : ℚ := 1/2
deriving Repr, DecidableEq

/-- The `StepResult` dataclass (src/agent/agent.py lines 30-37). -/
structure StepResult where
  step_number : Nat
  thought : String
  action : String
  action_params : Params
  result : ActionResult
  screenshot_path : Option String := none
deriving Repr, DecidableEq

/-- One entry of the final result's `history` list
(src/agent/agent.py lines 200-209). -/
structure HistoryEntry where
  step : Nat
  thought : String
  action : String
  params : Params
  success : Bool
deriving Repr, DecidableEq

/-- The dictionary returned by `BrowserAgent.run`
(src/agent/agent.py lines 192-210). -/
structure RunResult where
  success : Bool
  reason : String
  task : Option String
  steps_taken : Nat
  history : List HistoryEntry
deriving Repr, DecidableEq

/-- The mutable fields of a `BrowserAgent` that the loop reads or writes;
the browser handle, model name, planner and tool registry are external
collaborators. -/
structure BrowserAgent where
  max_steps : Nat
  memory : Memory
  state : AgentState
  current_task : Option String
  step_history : List StepResult
deriving Repr, DecidableEq

/-- `BrowserAgent.__init__` (src/agent/agent.py lines 52-69). -/
def BrowserAgent.init (max_steps : Nat := 50) : BrowserAgent :=
  { max_steps := max_steps, memory := Memory.init, state := .idle
    current_task := none, step_history := [] }

/-- The actuator (`BrowserActions`): a runtime lookup from method name to a
fallible implementation; `none` models `getattr(self.actions, action, None)`
returning `None`, and `Except.error` models a raised exception. -/
def Actuator := String → Option (Params → Except String ActionResult)

/-- The `critical_errors` list of `BrowserAgent._should_abort`
(src/agent/agent.py lines 185-189). -/
def critical_errors : List String :=
  ["browser disconnected", "context destroyed", "target closed"]

/-- Python's substring test `needle in hay`. -/
def strContains (hay needle : String) : Bool :=
  decide (List.IsInfix needle.toList hay.toList)

/-- Python's `str.lower()`, modelled as per-character ASCII case
folding. -/
def strLower (s : String) : String :=
  ⟨s.data.map Char.toLower⟩

/-- `BrowserAgent._should_abort` (src/agent/agent.py lines 183-190):
`any(err in str(error).lower() for err in critical_errors)`. -/
def should_abort (error : String) : Bool :=
  critical_errors.any (fun err => strContains (strLower error) err)

/-- `BrowserAgent._execute_action` (src/agent/agent.py lines 162-181):
a missing attribute yields the "Unknown action" failure, and an exception
from the action is converted into an "Action failed" result. -/
def execute_action (actions : Actuator) (action : String) (params : Params) :
    ActionResult :=
  match actions action with
  | none =>
      { success := false, message := "Unknown action: " ++ action, data := none }
  | some f =>
      match f params with
      | .ok result => result
      | .error e =>
          { success := false, message := "Action failed: " ++ e, data := none }

/-- `BrowserAgent._create_result` (src/agent/agent.py lines 192-210).  The
`final_url` entry reads the live browser page handle, which is outside the
embedded state, and is omitted. -/
def create_result (ag : BrowserAgent) (success : Bool) (reason : String) :
    RunResult :=
  { success := success, reason := reason, task := ag.current_task
    steps_taken := ag.step_history.length
    history := ag.step_history.map (fun s =>
      { step := s.step_number, thought := s.thought, action := s.action
        params := s.action_params, success := s.result.success }) }

/-- One loop iteration's interaction with the external world:
* `raises e` — the observation fetch raises before anything is recorded;
* `raisesAfterObs obs e` — the observation succeeds and is recorded, then
  the planner call raises;
* `proceeds obs plan actions` — observation and planning succeed, and
  `actions` is the actuator lookup available for dispatch. -/
inductive StepEnv where
  | raises (err : String)
  | raisesAfterObs (obs : Obs) (err : String)
  | proceeds (obs : Obs) (plan : Plan) (actions : Actuator)

/-- The `while step < self.max_steps` loop of `BrowserAgent.run`
(src/agent/agent.py lines 87-144).  `remaining` is the structural fuel
`max_steps - step`, so the guard `step < max_steps` becomes `remaining ≠ 0`;
`step` is the Python loop counter before its increment at the top of the
body.  The step number doubles as the ambient clock value for timestamps.
The final `Nat` is a ghost counter of executed loop iterations; it feeds
nothing back into the run. -/
def run_loop (env : Nat → StepEnv) :
    Nat → Nat → BrowserAgent → RunResult × BrowserAgent × Nat
  | 0, _, ag =>
      let agf := { ag with state := AgentState.failed }
      (create_result agf false "Max steps reached", agf, 0)
  | remaining + 1, step, ag =>
      let s := step + 1
      match env s with
      | .raises e =>
          let ag₁ := { ag with memory := ag.memory.add_error e s }
          if should_abort e then
            let agf := { ag₁ with state := AgentState.failed }
            (create_result agf false e, agf, 1)
          else
            let r := run_loop env remaining s ag₁
            (r.1, r.2.1, r.2.2 + 1)
      | .raisesAfterObs obs e =>
          let ag₀ := { ag with
                       memory := ag.memory.add_observation obs s,
                       state := AgentState.thinking }
          let ag₁ := { ag₀ with memory := ag₀.memory.add_error e s }
          if should_abort e then
            let agf := { ag₁ with state := AgentState.failed }
            (create_result agf false e, agf, 1)
          else
            let r := run_loop env remaining s ag₁
            (r.1, r.2.1, r.2.2 + 1)
      | .proceeds obs plan actions =>
          let ag₀ := { ag with
                       memory := ag.memory.add_observation obs s,
                       state := AgentState.thinking }
          if plan.action = "complete" then
            let agf := { ag₀ with state := AgentState.completed }
            (create_result agf true plan.thought, agf, 1)
          else
            let result := execute_action actions plan.action plan.params
            let step_result : StepResult :=
              { step_number := s, thought := plan.thought, action := plan.action
                action_params := plan.params, result := result }
            let ag₁ := { ag₀ with
                         state := AgentState.acting,
                         step_history := ag₀.step_history ++ [step_result],
                         memory := ag₀.memory.add_action plan.action plan.params
                           (.ofActionResult result) s }
            let r := run_loop env remaining s ag₁
            (r.1, r.2.1, r.2.2 + 1)

/-- `BrowserAgent.run` (src/agent/agent.py lines 71-144): record the task,
enter `Thinking`, seed the goal, and drive the loop from step counter 0. -/
def BrowserAgent.run (ag : BrowserAgent) (env : Nat → StepEnv) (task : String) :
    RunResult × BrowserAgent × Nat :=
  let ag₀ := { ag with
               current_task := some task, state := AgentState.thinking,
               memory := ag.memory.set_goal task 0 }
  run_loop env ag.max_steps 0 ag₀

/-! ### Sequences of memory operations -/

/-- One call to `set_goal` or one of the `add_*` operations, carrying the
ambient clock value for the timestamp it stores. -/
inductive MemEvent where
  | setGoal (goal : String) (now : Nat)
  | subGoal (sub_goal : String) (now : Nat)
  | observation (o : Obs) (now : Nat)
  | action (a : String) (p : Params) (r : ResultVal) (now : Nat)
  | reflectionEv (r : ReflectionInput) (now : Nat)
  | error (e : String) (now : Nat)
  | note (n : String) (importance : ℚ) (now : Nat)

/-- Dispatch one memory operation; `none` is the (capacity-0) `IndexError`
of `_promote_to_long_term`. -/
def applyEvent (m : Memory) : MemEvent → Option Memory
  | .setGoal g now => some (m.set_goal g now)
  | .subGoal sg now => some (m.add_sub_goal sg now)
  | .observation o now => some (m.add_observation o now)
  | .action a p r now => some (m.add_action a p r now)
  | .reflectionEv r now => m.add_reflection r now
  | .error e now => some (m.add_error e now)
  | .note n imp now => some (m.add_note n now imp)

/-- Run a sequence of memory operations left to right. -/
def applyEvents (m : Memory) : List MemEvent → Option Memory
  | [] => some m
  | e :: es =>
      match applyEvent m e with
      | none => none
      | some m' => applyEvents m' es

/-- The short-term `MemoryItem` a given operation pushes; every operation
pushes exactly one item through `_add_to_short_term`. -/
def eventItem : MemEvent → MemoryItem
  | .setGoal g now => ⟨.str g, "goal", now, 1, ["goal", "task"]⟩
  | .subGoal sg now => ⟨.str sg, "sub_goal", now, 8/10, ["sub_goal"]⟩
  | .observation o now =>
      ⟨.obsSummary o.url o.title o.interactive_elements.length,
        "observation", now, 1/2, ["observation", "page"]⟩
  | .action a p r now =>
      ⟨.actionSummary a p (getattrSuccess r), "action", now,
        if getattrSuccess r then 7/10 else 9/10, ["action", a]⟩
  | .reflectionEv r now =>
      ⟨.reflection (r.content.getD r.asStr) r.adjustment now,
        "reflection", now, 85/100, ["reflection", "learning"]⟩
  | .error e now => ⟨.str e, "error", now, 8/10, ["error"]⟩
  | .note n imp now => ⟨.str n, "note", now, imp, ["note"]⟩

/-- One promotion request into the long-term tier. -/
structure Promotion where
  content : Content
  item_type : String
  now : Nat
  importance : ℚ
deriving Repr, DecidableEq

/-- The `MemoryItem` a promotion inserts (tags default to empty). -/
def Promotion.item (p : Promotion) : MemoryItem :=
  { content := p.content, item_type := p.item_type, timestamp := p.now
    importance := p.importance }

/-- Run a sequence of promotions against a long-term tier of capacity
`cap`. -/
def promoteAll (cap : Nat) :
    List MemoryItem → List Promotion → Option (List MemoryItem)
  | lt, [] => some lt
  | lt, p :: ps =>
      match promoteToLongTerm cap lt p.content p.item_type p.now p.importance with
      | none => none
      | some lt' => promoteAll cap lt' ps

/-! ### Theorems: success-rate queries (C7, C10) -/

/-- C7: `get_success_rate` on an empty action ledger returns 1.0; on a
non-empty ledger with `last_n ≥ 1` it returns the fraction of the last
`min(last_n, length)` action records whose success flag is true. -/
theorem success_rate_spec (m : Memory) (last_n : Nat) :
    (m.actions_history = [] → m.get_success_rate last_n = 1) ∧
    (1 ≤ last_n → m.actions_history ≠ [] →
      (sliceLast last_n m.actions_history).length
          = min last_n m.actions_history.length ∧
      m.get_success_rate last_n =
        (((m.actions_history.drop (m.actions_history.length - last_n)).filter
            (·.success)).length : ℚ) /
          ((min last_n m.actions_history.length : Nat) : ℚ)) := by
  constructor
  · intro h
    simp [Memory.get_success_rate, sliceLast, h]
  · intro hn hne
    have hlen : m.actions_history.length ≠ 0 := by
      simpa [List.length_eq_zero] using hne
    have hn0 : last_n ≠ 0 := by omega
    have hdrop : (m.actions_history.drop
        (m.actions_history.length - last_n)).length
        = min last_n m.actions_history.length := by
      rw [List.length_drop]; omega
    have hslice : sliceLast last_n m.actions_history
        = m.actions_history.drop (m.actions_history.length - last_n) := by
      simp [sliceLast, hn0]
    refine ⟨by rw [hslice, hdrop], ?_⟩
    have hnonempty : (m.actions_history.drop
        (m.actions_history.length - last_n)).isEmpty = false := by
      rw [Bool.eq_false_iff]
      intro hcon
      rw [List.isEmpty_iff_length_eq_zero, hdrop] at hcon
      omega
    rw [Memory.get_success_rate, hslice]
    simp [hnonempty, hdrop]

/-- Witness for `success_rate_spec` at a one-element ledger with a failed
action and `last_n = 1`. -/
theorem success_rate_spec_witness :
    ({ Memory.init 20 100 with
       actions_history := [⟨"click", [], .other "r", false, 0⟩]
       } : Memory).get_success_rate 1 = 0 := by
  have h := (success_rate_spec
    { Memory.init 20 100 with
      actions_history := [⟨"click", [], .other "r", false, 0⟩] } 1).2
    (le_refl 1) (by decide)
  rw [h.2]
  norm_num [List.filter]

/-- C10: with `last_n = 0` on a non-empty ledger, the Python slice `[-0:]`
selects the whole history, so the rate is the success fraction over the
entire ledger, and it equals 1 only when every recorded action
succeeded. -/
theorem success_rate_zero (m : Memory) (h : m.actions_history ≠ []) :
    m.get_success_rate 0
        = ((m.actions_history.filter (·.success)).length : ℚ) /
            (m.actions_history.length : ℚ) ∧
    (m.get_success_rate 0 = 1 ↔ ∀ a ∈ m.actions_history, a.success = true) := by
  have hlen : m.actions_history.length ≠ 0 := by
    simpa [List.length_eq_zero] using h
  have hlenQ : ((m.actions_history.length : Nat) : ℚ) ≠ 0 := by
    exact_mod_cast hlen
  have hempty : m.actions_history.isEmpty = false := by
    rw [Bool.eq_false_iff]
    intro hcon
    exact h (List.isEmpty_iff.mp hcon)
  have h1 : m.get_success_rate 0
      = ((m.actions_history.filter (·.success)).length : ℚ) /
          (m.actions_history.length : ℚ) := by
    rw [Memory.get_success_rate]
    simp [sliceLast, hempty]
  refine ⟨h1, ?_⟩
  rw [h1, div_eq_one_iff_eq hlenQ, Nat.cast_inj]
  constructor
  · intro hc
    have heq : m.actions_history.filter (·.success) = m.actions_history :=
      (List.filter_sublist m.actions_history).eq_of_length hc
    exact fun a ha => List.filter_eq_self.mp heq a ha
  · intro hall
    rw [List.filter_eq_self.mpr hall]

/-- Witness for `success_rate_zero` at a two-element ledger with one
success and one failure: the rate with `last_n = 0` is 1/2, not 1. -/
theorem success_rate_zero_witness :
    ({ Memory.init 20 100 with
       actions_history := [⟨"click", [], .other "r", true, 0⟩,
         ⟨"fill", [], .other "r", false, 1⟩] } : Memory).get_success_rate 0
      = 1/2 := by
  have h := (success_rate_zero
    { Memory.init 20 100 with
      actions_history := [⟨"click", [], .other "r", true, 0⟩,
        ⟨"fill", [], .other "r", false, 1⟩] } (by decide)).1
  rw [h]
  norm_num [List.filter]

/-! ### Theorems: export / import boundary (C8) -/

/-- C8: importing an exported snapshot restores exactly the goal,
sub-goals, notes, reflections and errors fields of the exporting memory,
and leaves the importing memory's action ledger, short-term buffer,
long-term collection and observations cache unchanged. -/
theorem importState_frame (m₁ m₂ : Memory) :
    ((m₂.importState m₁.exportState).goal = m₁.goal) ∧
    ((m₂.importState m₁.exportState).sub_goals = m₁.sub_goals) ∧
    ((m₂.importState m₁.exportState).notes = m₁.notes) ∧
    ((m₂.importState m₁.exportState).reflections = m₁.reflections) ∧
    ((m₂.importState m₁.exportState).errors = m₁.errors) ∧
    ((m₂.importState m₁.exportState).actions_history = m₂.actions_history) ∧
    ((m₂.importState m₁.exportState).short_term = m₂.short_term) ∧
    ((m₂.importState m₁.exportState).long_term = m₂.long_term) ∧
    ((m₂.importState m₁.exportState).observations_cache
        = m₂.observations_cache) :=
  ⟨rfl, rfl, rfl, rfl, rfl, rfl, rfl, rfl, rfl⟩

/-! ### Theorems: duck-typed action results (C9) -/

/-- C9: `add_action` with a result object that has no `success` attribute
records the action as successful (`getattr` default `True`) and stores the
short-term item with the successful-action importance 0.7, not 0.9. -/
theorem add_action_missing_success (m : Memory) (a : String) (p : Params)
    (s : String) (now : Nat) :
    (m.add_action a p (.other s) now).actions_history
        = m.actions_history ++ [⟨a, p, .other s, true, now⟩] ∧
    (m.add_action a p (.other s) now).short_term
        = dequePush m.short_term_capacity m.short_term
            ⟨.actionSummary a p true, "action", now, 7/10, ["action", a]⟩ :=
  ⟨rfl, rfl⟩

/-! ### Theorems: long-term promotion policy (C4) -/

instance : IsTotal MemoryItem (fun a b => a.importance ≤ b.importance) :=
  ⟨fun a b => le_total a.importance b.importance⟩

instance : IsTrans MemoryItem (fun a b => a.importance ≤ b.importance) :=
  ⟨fun _ _ _ hab hbc => le_trans hab hbc⟩

theorem sortByImportance_perm (l : List MemoryItem) :
    (sortByImportance l).Perm l :=
  List.perm_insertionSort _ l

theorem sortByImportance_sorted (l : List MemoryItem) :
    List.Sorted (fun a b => a.importance ≤ b.importance) (sortByImportance l) :=
  List.sorted_insertionSort _ l

theorem sortByImportance_length (l : List MemoryItem) :
    (sortByImportance l).length = l.length :=
  List.length_insertionSort _ l

/-- While the long-term tier remains below capacity, promotions simply
append their items. -/
theorem promoteAll_fill (cap : Nat) :
    ∀ (ps : List Promotion) (lt : List MemoryItem),
      lt.length + ps.length ≤ cap →
      promoteAll cap lt ps = some (lt ++ ps.map Promotion.item) := by
  intro ps
  induction ps with
  | nil => intro lt h; simp [promoteAll]
  | cons p ps ih =>
      intro lt h
      have hnotfull : ¬ cap ≤ lt.length := by
        simp only [List.length_cons] at h; omega
      have hstep : promoteToLongTerm cap lt p.content p.item_type p.now
          p.importance = some (lt ++ [p.item]) := by
        simp [promoteToLongTerm, hnotfull, Promotion.item]
      have hlen' : (lt ++ [p.item]).length + ps.length ≤ cap := by
        simp only [List.length_append, List.length_singleton] at h ⊢
        simp only [List.length_cons] at h
        omega
      rw [promoteAll, hstep]
      exact (ih (lt ++ [p.item]) hlen').trans (by simp)

/-- Splitting a promotion sequence. -/
theorem promoteAll_append (cap : Nat) :
    ∀ (ps qs : List Promotion) (lt : List MemoryItem),
      promoteAll cap lt (ps ++ qs) =
        match promoteAll cap lt ps with
        | none => none
        | some lt' => promoteAll cap lt' qs := by
  intro ps
  induction ps with
  | nil => intro qs lt; simp [promoteAll]
  | cons p ps ih =>
      intro qs lt
      rw [List.cons_append, promoteAll, promoteAll]
      cases promoteToLongTerm cap lt p.content p.item_type p.now p.importance with
      | none => rfl
      | some lt' => exact ih qs lt'

/-- C4 counterexample: with capacity `K = 1`, promoting importance 1/2 and
then importance 3/10 retains exactly the item with the globally lowest
importance among all promoted items, so the retained set does not exclude
it.  The eviction only considers items already present, never the
incoming item. -/
theorem long_term_global_min_retained :
    promoteAll 1 [] [⟨.str "a", "t", 0, 1/2⟩, ⟨.str "b", "t", 1, 3/10⟩]
        = some [Promotion.item ⟨.str "b", "t", 1, 3/10⟩] ∧
    (Promotion.item ⟨.str "b", "t", 1, 3/10⟩).importance
        < (Promotion.item ⟨.str "a", "t", 0, 1/2⟩).importance := by
  constructor
  · rfl
  · norm_num [Promotion.item]

/-- C4 as amended: for capacity `K ≥ 1`, a sequence of `K + 1` promotions
into an initially empty long-term tier leaves exactly `K` items; the
single eviction (at the final, full insertion) removes a lowest-importance
item among the `K` items present before that insertion — the final
promoted item itself is always retained.  The evicted element is the head
of the stable ascending sort, so ties resolve deterministically toward the
earliest-sorted item. -/
theorem long_term_eviction_bound (cap : Nat) (hcap : 1 ≤ cap)
    (first : List Promotion) (lastp : Promotion)
    (hlen : first.length = cap) :
    ∃ evicted rest,
      sortByImportance (first.map Promotion.item) = evicted :: rest ∧
      promoteAll cap [] (first ++ [lastp]) = some (rest ++ [lastp.item]) ∧
      (rest ++ [lastp.item]).length = cap ∧
      (∀ x ∈ first.map Promotion.item, evicted.importance ≤ x.importance) ∧
      (evicted :: rest).Perm (first.map Promotion.item) := by
  have hfill : promoteAll cap [] first = some (first.map Promotion.item) := by
    simpa using promoteAll_fill cap first [] (by simpa using hlen.le)
  have hsortlen : (sortByImportance (first.map Promotion.item)).length = cap := by
    rw [sortByImportance_length, List.length_map, hlen]
  obtain ⟨evicted, rest, hsort⟩ :
      ∃ e r, sortByImportance (first.map Promotion.item) = e :: r := by
    cases hs : sortByImportance (first.map Promotion.item) with
    | nil => rw [hs] at hsortlen; simp at hsortlen; omega
    | cons e r => exact ⟨e, r, rfl⟩
  have hfull : cap ≤ (first.map Promotion.item).length := by
    rw [List.length_map, hlen]
  have hlast : promoteToLongTerm cap (first.map Promotion.item) lastp.content
      lastp.item_type lastp.now lastp.importance
        = some (rest ++ [lastp.item]) := by
    rw [promoteToLongTerm]
    simp only [hfull, if_true, hsort]
    rfl
  refine ⟨evicted, rest, hsort, ?_, ?_, ?_, ?_⟩
  · rw [promoteAll_append cap first [lastp] [], hfill]
    show promoteAll cap (first.map Promotion.item) [lastp] = _
    simp only [promoteAll, hlast]
  · rw [hsort] at hsortlen
    simp only [List.length_cons] at hsortlen
    simp only [List.length_append, List.length_singleton]
    omega
  · intro x hx
    have hmem : x ∈ evicted :: rest := by
      rw [← hsort]
      exact ((sortByImportance_perm (first.map Promotion.item)).mem_iff).mpr hx
    rcases List.mem_cons.mp hmem with hxe | hxr
    · rw [hxe]
    · have hsorted := sortByImportance_sorted (first.map Promotion.item)
      rw [hsort] at hsorted
      exact List.rel_of_sorted_cons hsorted x hxr
  · rw [← hsort]
    exact sortByImportance_perm (first.map Promotion.item)

/-- Witness for `long_term_eviction_bound` at capacity 1 with concrete
promotions of importances 1/2 and then 3/10. -/
theorem long_term_eviction_bound_witness :
    ∃ evicted rest,
      sortByImportance ([⟨.str "a", "t", 0, 1/2⟩].map Promotion.item)
          = evicted :: rest ∧
      promoteAll 1 [] ([⟨.str "a", "t", 0, 1/2⟩] ++ [⟨.str "b", "t", 1, 3/10⟩])
          = some (rest ++ [Promotion.item ⟨.str "b", "t", 1, 3/10⟩]) ∧
      (rest ++ [Promotion.item ⟨.str "b", "t", 1, 3/10⟩]).length = 1 ∧
      (∀ x ∈ [⟨.str "a", "t", 0, 1/2⟩].map Promotion.item,
        evicted.importance ≤ x.importance) ∧
      (evicted :: rest).Perm ([⟨.str "a", "t", 0, 1/2⟩].map Promotion.item) :=
  long_term_eviction_bound 1 (le_refl 1) [⟨.str "a", "t", 0, 1/2⟩]
    ⟨.str "b", "t", 1, 3/10⟩ rfl

/-! ### Theorems: short-term buffer bound (C5) -/

/-- Every memory operation preserves the two configured capacities. -/
theorem applyEvent_caps {m m' : Memory} {e : MemEvent}
    (h : applyEvent m e = some m') :
    m'.short_term_capacity = m.short_term_capacity ∧
    m'.long_term_capacity = m.long_term_capacity := by
  cases e with
  | setGoal g now => cases h; exact ⟨rfl, rfl⟩
  | subGoal sg now => cases h; exact ⟨rfl, rfl⟩
  | observation o now => cases h; exact ⟨rfl, rfl⟩
  | action a p r now => cases h; exact ⟨rfl, rfl⟩
  | reflectionEv r now =>
      rw [applyEvent, Memory.add_reflection] at h
      by_cases himp : r.is_important
      · simp only [himp, if_true] at h
        obtain ⟨lt, _, hmap⟩ := Option.map_eq_some'.mp h
        rw [← hmap]
        exact ⟨rfl, rfl⟩
      · simp only [himp, if_false] at h
        cases h
        exact ⟨rfl, rfl⟩
  | error e now => cases h; exact ⟨rfl, rfl⟩
  | note n imp now => cases h; exact ⟨rfl, rfl⟩

/-- Every memory operation pushes exactly one item onto the short-term
deque, namely `eventItem`. -/
theorem applyEvent_short_term {m m' : Memory} {e : MemEvent}
    (h : applyEvent m e = some m') :
    m'.short_term = dequePush m.short_term_capacity m.short_term (eventItem e) := by
  cases e with
  | setGoal g now => cases h; rfl
  | subGoal sg now => cases h; rfl
  | observation o now => cases h; rfl
  | action a p r now => cases h; rfl
  | reflectionEv r now =>
      rw [applyEvent, Memory.add_reflection] at h
      by_cases himp : r.is_important
      · simp only [himp, if_true] at h
        obtain ⟨lt, _, hmap⟩ := Option.map_eq_some'.mp h
        rw [← hmap]
        rfl
      · simp only [himp, if_false] at h
        cases h
        rfl
  | error e now => cases h; rfl
  | note n imp now => cases h; rfl

/-- With a positive long-term capacity, no memory operation can hit the
`pop(0)`-on-empty `IndexError`. -/
theorem applyEvent_isSome {m : Memory} (hm : 1 ≤ m.long_term_capacity)
    (e : MemEvent) : ∃ m', applyEvent m e = some m' := by
  cases e with
  | setGoal g now => exact ⟨_, rfl⟩
  | subGoal sg now => exact ⟨_, rfl⟩
  | observation o now => exact ⟨_, rfl⟩
  | action a p r now => exact ⟨_, rfl⟩
  | reflectionEv r now =>
      rw [applyEvent, Memory.add_reflection]
      by_cases himp : r.is_important
      · simp only [himp, if_true]
        rw [← Option.isSome_iff_exists]
        rw [promoteToLongTerm]
        by_cases hfull : m.long_term_capacity ≤ m.long_term.length
        · have hlt : m.long_term.length ≠ 0 := by omega
          have hslen : (sortByImportance m.long_term).length ≠ 0 := by
            rw [sortByImportance_length]; exact hlt
          cases hs : sortByImportance m.long_term with
          | nil => rw [hs] at hslen; simp at hslen
          | cons x rest =>
              simp [Memory.add_to_short_term, hfull, hs]
        · simp [Memory.add_to_short_term, hfull]
      · simp only [himp, if_false]
        exact ⟨_, rfl⟩
  | error e now => exact ⟨_, rfl⟩
  | note n imp now => exact ⟨_, rfl⟩

/-- Folding pushes into a bounded deque keeps exactly the most recent
`cap` elements: the result is the suffix of the full insertion sequence. -/
theorem foldl_dequePush (cap : Nat) :
    ∀ (xs q : List α), q.length ≤ cap →
      xs.foldl (dequePush cap) q = (q ++ xs).drop ((q ++ xs).length - cap) := by
  intro xs
  induction xs with
  | nil =>
      intro q h
      have h0 : q.length - cap = 0 := by omega
      simp [h0]
  | cons x xs ih =>
      intro q h
      rw [List.foldl_cons]
      by_cases hfull : cap < (q ++ [x]).length
      · have hq : q.length = cap := by
          simp only [List.length_append, List.length_singleton] at hfull
          omega
        have hamt : (q ++ [x]).length - cap = 1 := by
          simp only [List.length_append, List.length_singleton]
          omega
        have hpush : dequePush cap q x = (q ++ [x]).drop 1 := by
          rw [dequePush]
          simp only [hfull, if_true, hamt]
        have hlen1 : ((q ++ [x]).drop 1).length ≤ cap := by
          rw [List.length_drop]
          simp only [List.length_append, List.length_singleton]
          omega
        have hql : (q ++ [x]) ++ xs = q ++ x :: xs := by simp
        rw [hpush, ih _ hlen1,
          ← List.drop_append_of_le_length
            (by simp only [List.length_append, List.length_singleton]; omega),
          List.drop_drop, hql]
        congr 1
        simp only [List.length_drop, List.length_append,
          List.length_singleton, List.length_cons]
        omega
      · have hpush : dequePush cap q x = q ++ [x] := by
          rw [dequePush]
          simp only [hfull, if_false]
        have hlen1 : (q ++ [x]).length ≤ cap := by
          simp only [List.length_append, List.length_singleton] at hfull ⊢
          omega
        have hql : (q ++ [x]) ++ xs = q ++ x :: xs := by simp
        rw [hpush, ih _ hlen1, hql]

/-- Running a sequence of memory operations preserves capacities, never
hits the promotion `IndexError` when the long-term capacity is positive,
and leaves the short-term buffer equal to the fold of the pushed items. -/
theorem applyEvents_spec :
    ∀ (es : List MemEvent) (m : Memory), 1 ≤ m.long_term_capacity →
      ∃ m', applyEvents m es = some m' ∧
        m'.short_term_capacity = m.short_term_capacity ∧
        m'.long_term_capacity = m.long_term_capacity ∧
        m'.short_term = es.foldl
          (fun q e => dequePush m.short_term_capacity q (eventItem e))
          m.short_term := by
  intro es
  induction es with
  | nil => intro m hm; exact ⟨m, rfl, rfl, rfl, rfl⟩
  | cons e es ih =>
      intro m hm
      obtain ⟨m₁, h₁⟩ := applyEvent_isSome hm e
      obtain ⟨hc₁, hc₂⟩ := applyEvent_caps h₁
      obtain ⟨m', h', hcap₁, hcap₂, hst⟩ := ih m₁ (by rw [hc₂]; exact hm)
      refine ⟨m', ?_, by rw [hcap₁, hc₁], by rw [hcap₂, hc₂], ?_⟩
      · rw [applyEvents, h₁]
        exact h'
      · rw [hst, applyEvent_short_term h₁, List.foldl_cons, hc₁]

/-- C5: starting from a fresh memory with short-term capacity `C` (and any
positive long-term capacity), a sequence of `set_goal`/`add_*` operations
never fails, the short-term buffer always ends as the suffix of the pushed
items — exactly the `C` most recent items, in insertion order, once at
least `C` items were inserted — and its size never exceeds `C` after any
prefix of the operations. -/
theorem short_term_bound (C K : Nat) (hK : 1 ≤ K) (es : List MemEvent) :
    ∃ m', applyEvents (Memory.init C K) es = some m' ∧
      m'.short_term = (es.map eventItem).drop (es.length - C) ∧
      (C ≤ es.length → m'.short_term.length = C) ∧
      (∀ n, ∃ mn, applyEvents (Memory.init C K) (es.take n) = some mn ∧
        mn.short_term.length ≤ C) := by
  have hinit : 1 ≤ (Memory.init C K).long_term_capacity := hK
  have hconv : ∀ fs : List MemEvent,
      fs.foldl (fun q e => dequePush C q (eventItem e)) []
        = (fs.map eventItem).drop ((fs.map eventItem).length - C) := by
    intro fs
    rw [← List.foldl_map eventItem (dequePush C) fs []]
    have := foldl_dequePush C (fs.map eventItem) [] (by simp)
    simpa using this
  obtain ⟨m', h', _, _, hst⟩ := applyEvents_spec es (Memory.init C K) hinit
  have hst' : m'.short_term = (es.map eventItem).drop (es.length - C) := by
    rw [hst]
    show List.foldl (fun q e => dequePush C q (eventItem e)) [] es = _
    rw [hconv es, List.length_map]
  refine ⟨m', h', hst', ?_, ?_⟩
  · intro hC
    rw [hst', List.length_drop, List.length_map]
    omega
  · intro n
    obtain ⟨mn, hn, _, _, hstn⟩ :=
      applyEvents_spec (es.take n) (Memory.init C K) hinit
    refine ⟨mn, hn, ?_⟩
    have hstn' : mn.short_term
        = ((es.take n).map eventItem).drop (((es.take n).map eventItem).length - C) := by
      rw [hstn]
      show List.foldl (fun q e => dequePush C q (eventItem e)) [] (es.take n) = _
      rw [hconv (es.take n), List.length_map]
    rw [hstn', List.length_drop]
    omega

/-- Witness for `short_term_bound`: capacity 1, two error insertions; the
buffer ends holding exactly the second item. -/
theorem short_term_bound_witness :
    ∃ m', applyEvents (Memory.init 1 1)
        [MemEvent.error "a" 0, MemEvent.error "b" 1] = some m' ∧
      m'.short_term = [⟨Content.str "b", "error", 1, 8/10, ["error"]⟩] := by
  obtain ⟨m', h', hst, _, _⟩ := short_term_bound 1 1 (le_refl 1)
    [MemEvent.error "a" 0, MemEvent.error "b" 1]
  refine ⟨m', h', ?_⟩
  rw [hst]
  rfl

/-! ### Theorems: the orchestrator loop (C1, C2, C3, C6) -/

/-- A step environment that neither proposes `complete` nor raises a
critical error. -/
def stepOk : StepEnv → Prop
  | .raises e => should_abort e = false
  | .raisesAfterObs _ e => should_abort e = false
  | .proceeds _ plan _ => plan.action ≠ "complete"

/-- Under `stepOk` environments the loop always runs its remaining budget
to exhaustion and exits through the max-steps branch. -/
theorem run_loop_max (env : Nat → StepEnv) (h : ∀ i, stepOk (env i)) :
    ∀ (remaining step : Nat) (ag : BrowserAgent),
      ∃ agf, run_loop env remaining step ag
          = (create_result agf false "Max steps reached", agf, remaining) ∧
        agf.state = AgentState.failed := by
  intro remaining
  induction remaining with
  | zero =>
      intro step ag
      exact ⟨{ ag with state := AgentState.failed }, rfl, rfl⟩
  | succ r ih =>
      intro step ag
      have hs := h (step + 1)
      cases henv : env (step + 1) with
      | raises e =>
          rw [henv] at hs
          have hs' : should_abort e = false := hs
          obtain ⟨agf, heq, hst⟩ :=
            ih (step + 1) { ag with memory := ag.memory.add_error e (step + 1) }
          refine ⟨agf, ?_, hst⟩
          rw [run_loop]
          simp only [henv, hs', Bool.false_eq_true, if_false, heq]
      | raisesAfterObs obs e =>
          rw [henv] at hs
          have hs' : should_abort e = false := hs
          obtain ⟨agf, heq, hst⟩ := ih (step + 1)
            { ag with
              memory := (ag.memory.add_observation obs (step + 1)).add_error e
                (step + 1),
              state := AgentState.thinking }
          refine ⟨agf, ?_, hst⟩
          rw [run_loop]
          simp only [henv, hs', Bool.false_eq_true, if_false, heq]
      | proceeds obs plan actions =>
          rw [henv] at hs
          have hs' : plan.action ≠ "complete" := hs
          obtain ⟨agf, heq, hst⟩ := ih (step + 1)
            { ag with
              memory := (ag.memory.add_observation obs (step + 1)).add_action
                plan.action plan.params
                (.ofActionResult (execute_action actions plan.action plan.params))
                (step + 1),
              state := AgentState.acting,
              step_history := ag.step_history ++
                [{ step_number := step + 1, thought := plan.thought,
                   action := plan.action, action_params := plan.params,
                   result := execute_action actions plan.action plan.params }] }
          refine ⟨agf, ?_, hst⟩
          rw [run_loop]
          simp only [henv, hs', if_false, heq]

/-- C1 (amended): for any `max_steps = N`, a run whose oracle never
proposes `complete` and whose step-level errors never match the
critical-error vocabulary performs exactly `N` loop iterations (the ghost
counter equals `N`), ends in the `Failed` state, and returns a failure
result with reason `"Max steps reached"` (capital M as written by
`BrowserAgent.run`). -/
theorem run_budget_invariant (env : Nat → StepEnv) (ag : BrowserAgent)
    (task : String) (h : ∀ i, stepOk (env i)) :
    ∃ res agf, ag.run env task = (res, agf, ag.max_steps) ∧
      res.success = false ∧ res.reason = "Max steps reached" ∧
      agf.state = AgentState.failed := by
  obtain ⟨agf, heq, hst⟩ := run_loop_max env h ag.max_steps 0
    { ag with
      current_task := some task, state := AgentState.thinking,
      memory := ag.memory.set_goal task 0 }
  exact ⟨create_result agf false "Max steps reached", agf,
    by rw [BrowserAgent.run]; exact heq, rfl, rfl, hst⟩

/-- The environment used for the concrete budget runs: the oracle always
proposes a `click` action that the actuator does not know. -/
def envNoComplete : Nat → StepEnv :=
  fun _ => StepEnv.proceeds {} ⟨"looking", "click", [], 1/2⟩ (fun _ => none)

/-- Witness for `run_budget_invariant`: a 2-step budget with
`envNoComplete` runs exactly 2 iterations and fails. -/
theorem run_budget_invariant_witness :
    ∃ res agf,
      (BrowserAgent.init 2).run envNoComplete "task" = (res, agf, 2) ∧
      res.success = false ∧ res.reason = "Max steps reached" ∧
      agf.state = AgentState.failed :=
  run_budget_invariant envNoComplete (BrowserAgent.init 2) "task"
    (fun i => by show "click" ≠ "complete"; decide)

/-- C1 counterexample: the claim's literal reason string is
`"max steps reached"`, but the code returns `"Max steps reached"`
(src/agent/agent.py line 144), so on a 2-step run that never completes the
returned reason differs from the claimed one while every other clause of
the claim holds. -/
theorem run_budget_reason_case :
    ((BrowserAgent.init 2).run envNoComplete "task").1.success = false ∧
    ((BrowserAgent.init 2).run envNoComplete "task").2.2 = 2 ∧
    ((BrowserAgent.init 2).run envNoComplete "task").2.1.state
        = AgentState.failed ∧
    ((BrowserAgent.init 2).run envNoComplete "task").1.reason
        = "Max steps reached" ∧
    ((BrowserAgent.init 2).run envNoComplete "task").1.reason
        ≠ "max steps reached" :=
  ⟨rfl, rfl, rfl, rfl, by decide⟩

/-- The claim-side abort predicate: the error text, compared
case-insensitively, contains one of the critical-error substrings. -/
def criticalMatch (e : String) : Prop :=
  ∃ c ∈ critical_errors, List.IsInfix c.toList (strLower e).toList

/-- The code's `_should_abort` decides exactly `criticalMatch`. -/
theorem should_abort_iff (e : String) :
    should_abort e = true ↔ criticalMatch e := by
  rw [should_abort, criticalMatch, List.any_eq_true]
  constructor
  · rintro ⟨c, hc, hinf⟩
    exact ⟨c, hc, of_decide_eq_true hinf⟩
  · rintro ⟨c, hc, hinf⟩
    exact ⟨c, hc, decide_eq_true hinf⟩

/-- C2: when a loop step raises an exception with text `e` (whether the
observation fetch or the planner raised), the error text is appended to
the memory's error list, and the run returns immediately — in the
`Failed` state, as a failure result whose reason is the error text — if
and only if `e` case-insensitively contains one of "browser disconnected",
"context destroyed", "target closed"; otherwise the loop continues with
the next iteration. -/
theorem step_error_abort_iff (env : Nat → StepEnv) (remaining step : Nat)
    (ag : BrowserAgent) (e : String)
    (henv : env (step + 1) = StepEnv.raises e ∨
      ∃ obs, env (step + 1) = StepEnv.raisesAfterObs obs e) :
    (should_abort e = true ↔ criticalMatch e) ∧
    (criticalMatch e →
      ∃ res agf, run_loop env (remaining + 1) step ag = (res, agf, 1) ∧
        res.success = false ∧ res.reason = e ∧
        agf.state = AgentState.failed ∧
        agf.memory.errors = ag.memory.errors ++ [e]) ∧
    (¬ criticalMatch e →
      ∃ ag₁, ag₁.memory.errors = ag.memory.errors ++ [e] ∧
        run_loop env (remaining + 1) step ag =
          ((run_loop env remaining (step + 1) ag₁).1,
           (run_loop env remaining (step + 1) ag₁).2.1,
           (run_loop env remaining (step + 1) ag₁).2.2 + 1)) := by
  refine ⟨should_abort_iff e, ?_, ?_⟩
  · intro hcrit
    have habort : should_abort e = true := (should_abort_iff e).mpr hcrit
    rcases henv with henv | ⟨obs, henv⟩
    · refine ⟨create_result
        { ag with
          memory := ag.memory.add_error e (step + 1),
          state := AgentState.failed } false e,
        { ag with
          memory := ag.memory.add_error e (step + 1),
          state := AgentState.failed }, ?_, rfl, rfl, rfl, rfl⟩
      rw [run_loop]
      simp only [henv, habort, if_true]
    · refine ⟨create_result
        { ag with
          memory := (ag.memory.add_observation obs (step + 1)).add_error e
            (step + 1),
          state := AgentState.failed } false e,
        { ag with
          memory := (ag.memory.add_observation obs (step + 1)).add_error e
            (step + 1),
          state := AgentState.failed }, ?_, rfl, rfl, rfl, rfl⟩
      rw [run_loop]
      simp only [henv, habort, if_true]
  · intro hcrit
    have habort : should_abort e = false := by
      rw [Bool.eq_false_iff]
      intro hcon
      exact hcrit ((should_abort_iff e).mp hcon)
    rcases henv with henv | ⟨obs, henv⟩
    · refine ⟨{ ag with memory := ag.memory.add_error e (step + 1) },
        rfl, ?_⟩
      rw [run_loop]
      simp only [henv, habort, Bool.false_eq_true, if_false]
    · refine ⟨{ ag with
        memory := (ag.memory.add_observation obs (step + 1)).add_error e
          (step + 1),
        state := AgentState.thinking }, rfl, ?_⟩
      rw [run_loop]
      simp only [henv, habort, Bool.false_eq_true, if_false]

/-- Witness for `step_error_abort_iff`: the error "Target closed" aborts a
run immediately with the error text as the reason. -/
theorem step_error_abort_iff_witness :
    ∃ res agf,
      run_loop (fun _ => StepEnv.raises "Target closed") 1 0
          (BrowserAgent.init 5) = (res, agf, 1) ∧
      res.success = false ∧ res.reason = "Target closed" ∧
      agf.state = AgentState.failed := by
  obtain ⟨-, habort, -⟩ := step_error_abort_iff
    (fun _ => StepEnv.raises "Target closed") 0 0 (BrowserAgent.init 5)
    "Target closed" (Or.inl rfl)
  obtain ⟨res, agf, heq, hsucc, hreason, hstate, -⟩ := habort
    ⟨"target closed", by decide, by decide⟩
  exact ⟨res, agf, heq, hsucc, hreason, hstate⟩

/-- C3: when the planner's plan has `action == "complete"`, the loop sets
the state to `Completed` and returns a success result immediately with the
plan's thought as the reason; no `StepResult` is appended (the step is
absent from the returned history and does not count in `steps_taken`),
and the actuator is never consulted — replacing this step's actuator by
any other leaves the run unchanged. -/
theorem complete_action_returns (env : Nat → StepEnv) (remaining step : Nat)
    (ag : BrowserAgent) (obs : Obs) (plan : Plan) (actions : Actuator)
    (henv : env (step + 1) = StepEnv.proceeds obs plan actions)
    (hc : plan.action = "complete") :
    ∃ res agf, run_loop env (remaining + 1) step ag = (res, agf, 1) ∧
      res.success = true ∧ res.reason = plan.thought ∧
      agf.state = AgentState.completed ∧
      agf.step_history = ag.step_history ∧
      res.steps_taken = ag.step_history.length ∧
      res.history = ag.step_history.map (fun s =>
        { step := s.step_number, thought := s.thought, action := s.action,
          params := s.action_params, success := s.result.success }) ∧
      (∀ actions' : Actuator,
        run_loop (Function.update env (step + 1)
            (StepEnv.proceeds obs plan actions')) (remaining + 1) step ag
          = run_loop env (remaining + 1) step ag) := by
  refine ⟨create_result
      { ag with
        memory := ag.memory.add_observation obs (step + 1),
        state := AgentState.completed } true plan.thought,
    { ag with
      memory := ag.memory.add_observation obs (step + 1),
      state := AgentState.completed }, ?_, rfl, rfl, rfl, rfl, rfl, rfl, ?_⟩
  · rw [run_loop]
    simp only [henv, hc, if_true]
  · intro actions'
    rw [run_loop, run_loop]
    simp only [Function.update_same, henv, hc, if_true]

/-- Witness for `complete_action_returns` on a concrete one-step
environment whose plan is `complete` with thought "done". -/
theorem complete_action_returns_witness :
    ∃ res agf,
      run_loop (fun _ => StepEnv.proceeds {} ⟨"done", "complete", [], 1/2⟩
          (fun _ => none)) 3 0 (BrowserAgent.init 5) = (res, agf, 1) ∧
      res.success = true ∧ res.reason = "done" ∧
      agf.state = AgentState.completed ∧ agf.step_history = [] := by
  obtain ⟨res, agf, heq, hs, hr, hst, hh, -, -, -⟩ := complete_action_returns
    (fun _ => StepEnv.proceeds {} ⟨"done", "complete", [], 1/2⟩ (fun _ => none))
    2 0 (BrowserAgent.init 5) {} ⟨"done", "complete", [], 1/2⟩ (fun _ => none)
    rfl rfl
  exact ⟨res, agf, heq, hs, hr, hst, hh⟩

/-- C6: dispatching an action name the actuator does not know yields a
failed `ActionResult` whose message contains the action name
("Unknown action: <name>") instead of raising; an exception inside an
actuator action is converted into a failed `ActionResult` carrying the
exception text; and in either case the loop records the step and
continues with the next iteration. -/
theorem unknown_action_handling (actions : Actuator) (name : String)
    (params : Params) :
    (actions name = none →
      execute_action actions name params =
        { success := false, message := "Unknown action: " ++ name,
          data := none } ∧
      List.IsInfix name.toList ("Unknown action: " ++ name).toList) ∧
    (∀ f e, actions name = some f → f params = Except.error e →
      execute_action actions name params =
        { success := false, message := "Action failed: " ++ e,
          data := none }) ∧
    (∀ (env : Nat → StepEnv) (remaining step : Nat) (ag : BrowserAgent)
        (obs : Obs) (plan : Plan),
      env (step + 1) = StepEnv.proceeds obs plan actions →
      plan.action ≠ "complete" →
      ∃ ag₁, run_loop env (remaining + 1) step ag =
          ((run_loop env remaining (step + 1) ag₁).1,
           (run_loop env remaining (step + 1) ag₁).2.1,
           (run_loop env remaining (step + 1) ag₁).2.2 + 1) ∧
        ag₁.step_history = ag.step_history ++
          [{ step_number := step + 1, thought := plan.thought,
             action := plan.action, action_params := plan.params,
             result := execute_action actions plan.action plan.params }]) := by
  refine ⟨?_, ?_, ?_⟩
  · intro hnone
    refine ⟨?_, ?_⟩
    · rw [execute_action, hnone]
    · exact ⟨"Unknown action: ".toList, [],
        by simp [String.toList, String.data_append]⟩
  · intro f e hsome herr
    simp only [execute_action, hsome]
    rw [herr]
  · intro env remaining step ag obs plan henv hnc
    refine ⟨{ ag with
      memory := (ag.memory.add_observation obs (step + 1)).add_action
        plan.action plan.params
        (.ofActionResult (execute_action actions plan.action plan.params))
        (step + 1),
      state := AgentState.acting,
      step_history := ag.step_history ++
        [{ step_number := step + 1, thought := plan.thought,
           action := plan.action, action_params := plan.params,
           result := execute_action actions plan.action plan.params }] },
      ?_, rfl⟩
    rw [run_loop]
    simp only [henv, hnc, if_false]

/-- Witness for `unknown_action_handling` against a one-action actuator:
an unknown name reports "Unknown action", a raising action reports
"Action failed". -/
theorem unknown_action_handling_witness :
    execute_action
        (fun n => if n = "click" then some (fun _ => .error "boom") else none)
        "zzz" [] =
      { success := false, message := "Unknown action: zzz", data := none } ∧
    execute_action
        (fun n => if n = "click" then some (fun _ => .error "boom") else none)
        "click" [] =
      { success := false, message := "Action failed: boom", data := none } :=
  ⟨((unknown_action_handling
      (fun n => if n = "click" then some (fun _ => .error "boom") else none)
      "zzz" []).1 rfl).1,
    (unknown_action_handling
      (fun n => if n = "click" then some (fun _ => .error "boom") else none)
      "click" []).2.1 (fun _ => .error "boom") "boom" rfl rfl⟩
